import Mathlib

/-!
Shallow embedding of the redis-migrate migration engine
(packages: migrate, root destination decorator), together with
theorems checking the natural-language specification against it.

The embedding follows the Go source:
  * migrate/source.go : key types, the key-pattern filter decorator,
    the generic key-value store adapter (parser-based typed source);
  * migrate/copy.go   : the Copy engine and the standard recorder;
  * destination.go    : the key-prefixing destination decorator.

Stateful Go code is modelled by explicit state passing; the traces of
recorder notifications and destination write calls that a Copy run
produces are modelled as lists of events.
-/

namespace RedisMigrate

/-- Go `error` values are carried abstractly as their message strings
(`err.Error()` is the string itself); `Option Err` models a possibly-nil
`error` interface value, with `none` for nil. -/
abbrev Err := String

/-- Go `[]byte` payloads. -/
abbrev Bytes := List UInt8

/-- Go `float64` scores are never computed with by this code, only moved;
they are modelled as opaque 64-bit patterns. -/
structure Float64 where
  bits : Nat
deriving DecidableEq

/-- Go: `type SourceKeyType string` (migrate/source.go). Being a string type,
values outside the declared constants are representable. -/
abbrev SourceKeyType := String

def SourceKeyTypeSkip : SourceKeyType := ""

def SourceKeyTypeString : SourceKeyType := "string"

def SourceKeyTypeHash : SourceKeyType := "hash"

def SourceKeyTypeList : SourceKeyType := "list"

def SourceKeyTypeSet : SourceKeyType := "set"

def SourceKeyTypeZSet : SourceKeyType := "zset"

/-- Go: `type SourceHashItem struct { Key string; Value []byte }` -/
structure SourceHashItem where
  Key : String
  Value : Bytes
deriving DecidableEq

/-- Go: `type SourceZSetMember struct { Key string; Score float64 }` -/
structure SourceZSetMember where
  Key : String
  Score : Float64
deriving DecidableEq

/-- Go: `type KeyValueItem struct` (migrate/source.go). -/
structure KeyValueItem where
  Key : String
  Typ : SourceKeyType
  StringValue : Bytes
  HashField : String
  HashFieldValue : Bytes
  ListItem : String
  SetMember : String
  ZSetMember : String
  ZSetScore : Float64
deriving DecidableEq

/-- A value passed in the variadic `kvs ...interface{}` context list of
`CopyRecorder.Error`: Copy passes either strings (including key types)
or a whole `SourceZSetMember`. -/
inductive CtxVal where
  | s (v : String)
  | zm (m : SourceZSetMember)
deriving DecidableEq

/-- One call on the `CopyRecorder` interface. -/
inductive RecEvent where
  | error (message : String) (err : Option Err) (kvs : List CtxVal)
  | finish
  | key (typ : SourceKeyType) (k : String) (item : List String)
deriving DecidableEq

/-- One write call on the `Destination` interface. -/
inductive DstCall where
  | set (k : String) (v : Bytes)
  | hset (h k : String) (v : Bytes)
  | sadd (s k : String)
  | zadd (z k : String) (score : Float64)
  | lpush (l k : String)
deriving DecidableEq

/-- An observable step of a Copy run: a recorder notification or a
destination write call, in program order. -/
inductive Event where
  | rcd (e : RecEvent)
  | dst (c : DstCall)
deriving DecidableEq

/-- The destination write calls occurring in a trace, in order. -/
def dstCalls (tr : List Event) : List DstCall :=
  tr.filterMap fun ev =>
    match ev with
    | .dst c => some c
    | .rcd _ => none

/-- The recorder calls occurring in a trace, in order. -/
def recEvents (tr : List Event) : List RecEvent :=
  tr.filterMap fun ev =>
    match ev with
    | .rcd e => some e
    | .dst _ => none

def exOk {ε α : Type} (e : Except ε α) : Bool :=
  match e with
  | .ok _ => true
  | .error _ => false

def exErr {ε α : Type} (e : Except ε α) : Bool :=
  match e with
  | .ok _ => false
  | .error _ => true

/-- The behaviour of a `Source`, restricted to one yielded key, as the Copy
engine consumes it: the result of `key.Key()`, of `key.Type()` (a Go
multi-value return, value and possibly-nil error), and of each per-type
fetch accessor applied to this key. -/
structure CopyKey where
  key : String
  type : SourceKeyType × Option Err
  getR : Except Err Bytes
  hitemsR : Except Err (List SourceHashItem)
  litemsR : Except Err (List String)
  smembersR : Except Err (List String)
  zmembersR : Except Err (List SourceZSetMember)

/-- A destination is modelled by the error each write call returns
(`none` = success). -/
abbrev DstBehavior := DstCall → Option Err

/-- String arm of the Copy switch (migrate/copy.go lines 95-105):
fetch via `src.Get`; on success notify the recorder, then `dst.Set`. -/
def stringEvents (dst : DstBehavior) (k : CopyKey) (typ : SourceKeyType) : List Event :=
  match k.getR with
  | .error e =>
    [.rcd (.error "get string key value failed" (some e) [.s "type", .s typ, .s "key", .s k.key])]
  | .ok val =>
    .rcd (.key typ k.key []) :: .dst (.set k.key val) ::
      (match dst (.set k.key val) with
       | some e =>
         [.rcd (.error "set string key value failed" (some e)
            [.s "type", .s typ, .s "key", .s k.key])]
       | none => [])

/-- Body of the Hash arm's loop over fetched items (copy.go lines 111-117). -/
def hashItemEvents (dst : DstBehavior) (kname : String) (typ : SourceKeyType) :
    List SourceHashItem → List Event
  | [] => []
  | kv :: rest =>
    .rcd (.key typ kname [kv.Key]) :: .dst (.hset kname kv.Key kv.Value) ::
      ((match dst (.hset kname kv.Key kv.Value) with
        | some e =>
          [.rcd (.error "set hash item failed" (some e)
             [.s "type", .s typ, .s "key", .s kname, .s "field", .s kv.Key])]
        | none => []) ++ hashItemEvents dst kname typ rest)

/-- Body of the List arm's loop over fetched items (copy.go lines 124-130). -/
def listItemEvents (dst : DstBehavior) (kname : String) (typ : SourceKeyType) :
    List String → List Event
  | [] => []
  | item :: rest =>
    .rcd (.key typ kname [item]) :: .dst (.lpush kname item) ::
      ((match dst (.lpush kname item) with
        | some e =>
          [.rcd (.error "push list item failed" (some e)
             [.s "type", .s typ, .s "key", .s kname, .s "item", .s item])]
        | none => []) ++ listItemEvents dst kname typ rest)

/-- Body of the Set arm's loop over fetched members (copy.go lines 137-143). -/
def setMemberEvents (dst : DstBehavior) (kname : String) (typ : SourceKeyType) :
    List String → List Event
  | [] => []
  | member :: rest =>
    .rcd (.key typ kname [member]) :: .dst (.sadd kname member) ::
      ((match dst (.sadd kname member) with
        | some e =>
          [.rcd (.error "add set member failed" (some e)
             [.s "type", .s typ, .s "key", .s kname, .s "member", .s member])]
        | none => []) ++ setMemberEvents dst kname typ rest)

/-- Body of the ZSet arm's loop over fetched members (copy.go lines 150-156). -/
def zsetMemberEvents (dst : DstBehavior) (kname : String) (typ : SourceKeyType) :
    List SourceZSetMember → List Event
  | [] => []
  | member :: rest =>
    .rcd (.key typ kname [member.Key]) :: .dst (.zadd kname member.Key member.Score) ::
      ((match dst (.zadd kname member.Key member.Score) with
        | some e =>
          [.rcd (.error "add zset member failed" (some e)
             [.s "type", .s typ, .s "key", .s kname, .s "member", .zm member])]
        | none => []) ++ zsetMemberEvents dst kname typ rest)

/-- The `switch typ` dispatch of the Copy loop (copy.go lines 91-158),
reached when `key.Type()` returned `typ` with a nil error. In the default
arm the `err` variable is the nil error left by the successful `Type()`
call, so the recorder receives `none` there. -/
def keyDispatchEvents (dst : DstBehavior) (k : CopyKey) (typ : SourceKeyType) : List Event :=
  if typ = SourceKeyTypeSkip then []
    else if typ = SourceKeyTypeString then stringEvents dst k typ
    else if typ = SourceKeyTypeHash then
      match k.hitemsR with
      | .error e =>
        [.rcd (.error "get hash items failed" (some e) [.s "type", .s typ, .s "key", .s k.key])]
      | .ok items => hashItemEvents dst k.key typ items
    else if typ = SourceKeyTypeList then
      match k.litemsR with
      | .error e =>
        [.rcd (.error "get list items failed" (some e) [.s "type", .s typ, .s "key", .s k.key])]
      | .ok items => listItemEvents dst k.key typ items
    else if typ = SourceKeyTypeSet then
      match k.smembersR with
      | .error e =>
        [.rcd (.error "get set members failed" (some e) [.s "type", .s typ, .s "key", .s k.key])]
      | .ok members => setMemberEvents dst k.key typ members
    else if typ = SourceKeyTypeZSet then
      match k.zmembersR with
      | .error e =>
        [.rcd (.error "get zset members failed" (some e) [.s "type", .s typ, .s "key", .s k.key])]
      | .ok members => zsetMemberEvents dst k.key typ members
    else
      [.rcd (.error "unsupported key type" none [.s "type", .s typ, .s "key", .s k.key])]

/-- Per-key body of the Copy loop (copy.go lines 85-158): check the
`key.Type()` error, report and abandon the key on failure, otherwise
dispatch on the returned type. -/
def keyEvents (dst : DstBehavior) (k : CopyKey) : List Event :=
  match k.type with
  | (_, some e) =>
    [.rcd (.error "retrieve key type failed" (some e) [.s "key", .s k.key])]
  | (typ, none) => keyDispatchEvents dst k typ

/-- One non-terminal result of `iter.Next()` as the Copy loop sees it:
either a non-nil error (`continue`) or a key to process. The loop ends at
the first `(nil, nil)` result, which is not represented. -/
inductive IterStep where
  | nextErr (e : Err)
  | nextKey (k : CopyKey)

/-- Events produced by one iteration of the Copy loop (copy.go lines 76-158). -/
def stepEvents (dst : DstBehavior) : IterStep → List Event
  | .nextErr e => [.rcd (.error "iterate next key failed" (some e) [])]
  | .nextKey k => keyEvents dst k

/-- Events of the post-loop `iter.Error()` check (copy.go lines 160-163). -/
def termEvents (termErr : Option Err) : List Event :=
  match termErr with
  | some e => [.rcd (.error "iterator errors" (some e) [])]
  | none => []

/-- Events of the deferred `iter.Close()` error check (copy.go lines 68-73);
the deferred function runs after the function body, hence after `Finish`. -/
def closeEvents (closeErr : Option Err) : List Event :=
  match closeErr with
  | some e => [.rcd (.error "close source iterator failed" (some e) [])]
  | none => []

/-- Go: `func Copy(src Source, dst Destination, recorder CopyRecorder)`
(copy.go lines 66-165), as the trace of recorder and destination calls of
one run, given the digest of the iterator results the loop consumes, the
post-loop `iter.Error()` value and the deferred `iter.Close()` error. -/
def Copy (dst : DstBehavior) (steps : List IterStep)
    (termErr closeErr : Option Err) : List Event :=
  (steps.map (stepEvents dst)).flatten
    ++ termEvents termErr
    ++ [.rcd .finish]
    ++ closeEvents closeErr

/-- The rendering loop `for i := 0; i+1 < len(kvs); i += 2` of
`stdCopyRecorder.Error`, with `fmt.Sprint` abstracted as a parameter. -/
def renderKvs (sprint : CtxVal → String) : List CtxVal → String
  | a :: b :: rest => ", " ++ sprint a ++ ": " ++ sprint b ++ renderKvs sprint rest
  | _ => ""

/-- Go: `func (c *stdCopyRecorder) Error(message string, err error, kvs ...interface{})`
(copy.go lines 36-50). The method calls `err.Error()` unconditionally;
with a nil `err` this dereferences a nil interface, modelled as `none`
(no output line is produced, the program panics). -/
def stdCopyRecorderError (sprint : CtxVal → String) (message : String)
    (err : Option Err) (kvs : List CtxVal) : Option String :=
  match err with
  | none => none
  | some e => some (message ++ ": " ++ e ++ renderKvs sprint kvs ++ "\n")

/-- Go: `func (ps *prefixedDestination) prefixedKey(k string) string`
(destination.go lines 34-36). -/
def prefixedKey (p : String) (k : String) : String :=
  p ++ k

/-- The call the inner destination receives when a write goes through
`prefixedDestination` (destination.go lines 38-56): the key / collection
name is prefixed, all other arguments are forwarded unchanged. -/
def prefixedDstCall (p : String) : DstCall → DstCall
  | .set k v => .set (prefixedKey p k) v
  | .hset h k v => .hset (prefixedKey p h) k v
  | .sadd s k => .sadd (prefixedKey p s) k
  | .zadd z k score => .zadd (prefixedKey p z) k score
  | .lpush l k => .lpush (prefixedKey p l) k

/-- Behaviour of a `prefixedDestination` wrapping `inner`: every method
returns exactly what the inner destination returns on the prefixed call. -/
def prefixedDestination (p : String) (inner : DstBehavior) : DstBehavior :=
  fun c => inner (prefixedDstCall p c)

/-- Go: `func NewPrefixedDestination(prefix string, store Destination)`
(destination.go lines 22-30): fails when the prefix is empty, otherwise
returns the decorator (represented by its prefix). -/
def NewPrefixedDestination (p : String) : Except Err String :=
  if p = "" then .error "invalid store prefix"
  else .ok p

/-- A compiled `regexp.Regexp` is used by this code only through
`MatchString`; it is modelled as its match predicate. -/
abbrev Pattern := String → Bool

/-- The include and exclude matcher lists of a `keyPatternSource`
(migrate/source.go lines 97-101). -/
structure KeyPatternConfig where
  includes : List Pattern
  excludes : List Pattern

/-- Go: `func (k keyPatternFilteredKey) Type() (SourceKeyType, error)`
(migrate/source.go lines 61-84), given the result `(t, err)` of the
underlying key's `Type()` call and the key string. -/
def keyPatternFilteredKeyType (cfg : KeyPatternConfig) (key : String)
    (underlying : SourceKeyType × Option Err) : SourceKeyType × Option Err :=
  match underlying with
  | (t, some e) => (t, some e)
  | (t, none) =>
    if t = SourceKeyTypeSkip then (t, none)
    else if !cfg.excludes.isEmpty && cfg.excludes.any (fun e => e key) then
      (SourceKeyTypeSkip, none)
    else if !cfg.includes.isEmpty then
      if cfg.includes.any (fun i => i key) then (t, none)
      else (SourceKeyTypeSkip, none)
    else (t, none)

/-- Result of `NewKeyPatternSource`: either the original source returned
unwrapped (both pattern lists empty) or the filtering decorator. -/
inductive KeyPatternSourceResult where
  | unwrapped
  | wrapped (cfg : KeyPatternConfig)

/-- The `parseRegexps` closure inside `NewKeyPatternSource`
(migrate/source.go lines 107-117), with `regexp.Compile` abstracted as a
parameter: compiles each pattern string in order, failing on the first
invalid one. -/
def parseRegexps (compile : String → Except Err Pattern) :
    List String → Except Err (List Pattern)
  | [] => .ok []
  | s :: rest =>
    match compile s with
    | .error e => .error e
    | .ok r =>
      match parseRegexps compile rest with
      | .error e => .error e
      | .ok rs => .ok (r :: rs)

/-- Go: `func NewKeyPatternSource(source Source, includes, excludes []string)`
(migrate/source.go lines 103-131): returns the source unwrapped when both
lists are empty; otherwise compiles includes then excludes, propagating
the first compilation error (in which case no source is returned). -/
def NewKeyPatternSource (compile : String → Except Err Pattern)
    (includes excludes : List String) : Except Err KeyPatternSourceResult :=
  if includes.isEmpty && excludes.isEmpty then .ok .unwrapped
  else
    match parseRegexps compile includes with
    | .error e => .error e
    | .ok is =>
      match parseRegexps compile excludes with
      | .error e => .error e
      | .ok es => .ok (.wrapped ⟨is, es⟩)

/-- The dynamic value behind a `SourceKey` interface as it can reach the
`keyValueSource` accessors: either a `keyValueSourceKey` carrying its
buffered `KeyValueItem`, or a `keyPatternFilteredKey` wrapping another
key (the filter decorator's iterator wraps every key it yields). -/
inductive SourceKeyDyn where
  | kvKey (item : KeyValueItem)
  | filtered (cfg : KeyPatternConfig) (inner : SourceKeyDyn)

/-- Go: `Key()` on a dynamic source key: `keyValueSourceKey.Key` returns the
item's key (migrate/source.go lines 192-194); `keyPatternFilteredKey`
embeds the wrapped key, so `Key()` delegates to it. -/
def dynKey : SourceKeyDyn → String
  | .kvKey item => item.Key
  | .filtered _ inner => dynKey inner

/-- Go: `Type()` on a dynamic source key: `keyValueSourceKey.Type` returns the
item's type with a nil error (migrate/source.go lines 196-198);
`keyPatternFilteredKey.Type` applies the pattern filter on top of the
wrapped key's result. -/
def dynType : SourceKeyDyn → SourceKeyType × Option Err
  | .kvKey item => (item.Typ, none)
  | .filtered cfg inner => keyPatternFilteredKeyType cfg (dynKey inner) (dynType inner)

/-- The Go zero value of `KeyValueItem`: what the failed type assertion
`item, _ := k.(keyValueSourceKey)` inside the `keyValueSource` accessors
leaves in `item` when `k` is not a `keyValueSourceKey`. -/
def zeroKeyValueItem : KeyValueItem :=
  { Key := "", Typ := SourceKeyTypeSkip, StringValue := [], HashField := "",
    HashFieldValue := [], ListItem := "", SetMember := "", ZSetMember := "",
    ZSetScore := ⟨0⟩ }

/-- The type assertion `k.(keyValueSourceKey)` with ignored failure flag:
yields the carried item for a genuine `keyValueSourceKey` and the zero
value for any other dynamic type (such as `keyPatternFilteredKey`). -/
def assertKeyValueSourceKey : SourceKeyDyn → KeyValueItem
  | .kvKey item => item
  | .filtered _ _ => zeroKeyValueItem

/-- Go: `func (s keyValueSource) Get(k SourceKey)` (migrate/source.go 245-248). -/
def keyValueSourceGet (k : SourceKeyDyn) : Except Err Bytes :=
  .ok (assertKeyValueSourceKey k).StringValue

/-- Go: `func (s keyValueSource) HItems(k SourceKey)` (migrate/source.go 250-255). -/
def keyValueSourceHItems (k : SourceKeyDyn) : Except Err (List SourceHashItem) :=
  .ok [⟨(assertKeyValueSourceKey k).HashField, (assertKeyValueSourceKey k).HashFieldValue⟩]

/-- Go: `func (s keyValueSource) LItems(k SourceKey)` (migrate/source.go 257-260). -/
def keyValueSourceLItems (k : SourceKeyDyn) : Except Err (List String) :=
  .ok [(assertKeyValueSourceKey k).ListItem]

/-- Go: `func (s keyValueSource) SMembers(k SourceKey)` (migrate/source.go 262-265). -/
def keyValueSourceSMembers (k : SourceKeyDyn) : Except Err (List String) :=
  .ok [(assertKeyValueSourceKey k).SetMember]

/-- Go: `func (s keyValueSource) ZMembers(k SourceKey)` (migrate/source.go 267-272). -/
def keyValueSourceZMembers (k : SourceKeyDyn) : Except Err (List SourceZSetMember) :=
  .ok [⟨(assertKeyValueSourceKey k).ZSetMember, (assertKeyValueSourceKey k).ZSetScore⟩]

/-- One result of the underlying `KeyValueIterator.Next()` triple
`(key string, value []byte, err error)`. -/
abbrev KVTriple := String × Bytes × Option Err

/-- State of a `keyValueIterator` (migrate/source.go lines 200-204): the
results the underlying store iterator will still return, and the
internally recorded terminal error. -/
structure KeyValueIteratorState where
  rows : List KVTriple
  err : Option Err

/-- A user-supplied `SourceKeyParser.Parse` function. -/
abbrev KVParser := String → Bytes → Except Err KeyValueItem

/-- Go: `func (k *keyValueIterator) Next() (SourceKey, error)`
(migrate/source.go lines 214-235): with a recorded error, returns
`(nil, nil)` without touching the store; otherwise pulls one raw row;
a store error is recorded and `(nil, nil)` returned; an empty key ends
the stream; a parse failure is returned synchronously to the caller
without touching the recorded error; otherwise the parsed item is
returned as a `keyValueSourceKey`. An exhausted row list models the
store's persistent end-of-stream answer `("", nil, nil)`. -/
def keyValueIteratorNext (parse : KVParser) (s : KeyValueIteratorState) :
    (Option KeyValueItem × Option Err) × KeyValueIteratorState :=
  if s.err.isSome then ((none, none), s)
  else
    match s.rows with
    | [] => ((none, none), s)
    | (key, val, e) :: rest =>
      match e with
      | some er => ((none, none), ⟨rest, some er⟩)
      | none =>
        if key = "" then ((none, none), ⟨rest, none⟩)
        else
          match parse key val with
          | .error pe => ((none, some pe), ⟨rest, none⟩)
          | .ok item => ((some item, none), ⟨rest, none⟩)

/-- Go: `func (k *keyValueIterator) Error() error` (migrate/source.go 210-212). -/
def keyValueIteratorError (s : KeyValueIteratorState) : Option Err :=
  s.err

/-- The `CopyKey` digest of a dynamic source key served by a
`keyValueSource`: `Key()`, `Type()` and the five accessors applied to it. -/
def kvCopyKey (k : SourceKeyDyn) : CopyKey :=
  { key := dynKey k, type := dynType k, getR := keyValueSourceGet k,
    hitemsR := keyValueSourceHItems k, litemsR := keyValueSourceLItems k,
    smembersR := keyValueSourceSMembers k, zmembersR := keyValueSourceZMembers k }

/-- The iterator-result digest the Copy loop obtains when driving a fresh
`keyValueIterator` over the given store rows: repeated
`keyValueIteratorNext` calls until the first `(nil, nil)` result, paired
with the iterator's terminal `Error()` value at that point. -/
def runKV (parse : KVParser) : List KVTriple → List IterStep × Option Err
  | [] => ([], none)
  | (key, val, e) :: rest =>
    match e with
    | some er => ([], some er)
    | none =>
      if key = "" then ([], none)
      else
        match parse key val with
        | .error pe =>
          let r := runKV parse rest
          (.nextErr pe :: r.1, r.2)
        | .ok item =>
          let r := runKV parse rest
          (.nextKey (kvCopyKey (.kvKey item)) :: r.1, r.2)

/-- A whole `Copy` run over a `keyValueSource` built from the given store
rows and parser. -/
def copyKV (parse : KVParser) (dst : DstBehavior) (rows : List KVTriple)
    (closeErr : Option Err) : List Event :=
  Copy dst (runKV parse rows).1 (runKV parse rows).2 closeErr

/-- The events contributed by the loop iterations over the given rows. -/
def rowsEvents (parse : KVParser) (dst : DstBehavior) (rows : List KVTriple) : List Event :=
  ((runKV parse rows).1.map (stepEvents dst)).flatten

/-- A store row that yields a key the Copy loop processes: no store error,
a non-empty key, and a successful parse. -/
def goodRow (parse : KVParser) (r : KVTriple) : Bool :=
  r.2.2.isNone && !(r.1 = "") && exOk (parse r.1 r.2.1)

/-- The relevant fetch for a key of the given recognized type succeeded. -/
def fetchOk (k : CopyKey) (typ : SourceKeyType) : Bool :=
  if typ = SourceKeyTypeString then exOk k.getR
  else if typ = SourceKeyTypeHash then exOk k.hitemsR
  else if typ = SourceKeyTypeList then exOk k.litemsR
  else if typ = SourceKeyTypeSet then exOk k.smembersR
  else if typ = SourceKeyTypeZSet then exOk k.zmembersR
  else false

/-- Spec-side definition (for the refinement claim about per-item writes),
written from the spec's words: for a fetched key, one set per String
value, one hash_set per hash field/value pair, one list_push per list
item, one set_add per set member, and one sorted_set_add per
(member, score) pair, in the fetched sequence's order. -/
def specExpectedWrites (k : CopyKey) (typ : SourceKeyType) : List DstCall :=
  if typ = SourceKeyTypeString then
    match k.getR with
    | .ok v => [.set k.key v]
    | .error _ => []
  else if typ = SourceKeyTypeHash then
    match k.hitemsR with
    | .ok items => items.map fun kv => .hset k.key kv.Key kv.Value
    | .error _ => []
  else if typ = SourceKeyTypeList then
    match k.litemsR with
    | .ok items => items.map fun item => .lpush k.key item
    | .error _ => []
  else if typ = SourceKeyTypeSet then
    match k.smembersR with
    | .ok members => members.map fun m => .sadd k.key m
    | .error _ => []
  else if typ = SourceKeyTypeZSet then
    match k.zmembersR with
    | .ok members => members.map fun m => .zadd k.key m.Key m.Score
    | .error _ => []
  else []

/-- Spec-side decision function for the filter decorator, written from the
spec's words: a failed or Skip underlying resolution passes through
unchanged; otherwise a key matching any exclude pattern resolves to Skip
(exclude beats include); otherwise, with a non-empty include list, the
real type when some include matches and Skip when none does; otherwise
the real type passes through. -/
def specResolveType (cfg : KeyPatternConfig) (key : String) :
    SourceKeyType × Option Err → SourceKeyType × Option Err
  | (t, some e) => (t, some e)
  | (t, none) =>
    if t = SourceKeyTypeSkip then (t, none)
    else if cfg.excludes.any (fun p => p key) then (SourceKeyTypeSkip, none)
    else if cfg.includes.isEmpty then (t, none)
    else if cfg.includes.any (fun p => p key) then (t, none)
    else (SourceKeyTypeSkip, none)

lemma dstCalls_append (a b : List Event) : dstCalls (a ++ b) = dstCalls a ++ dstCalls b := by
  simp [dstCalls]

lemma recEvents_append (a b : List Event) : recEvents (a ++ b) = recEvents a ++ recEvents b := by
  simp [recEvents]

/-- C4. For every key yielded through the filter decorator, the decorated
`Type()` implements exactly the spec's decision function: failed or Skip
underlying resolution passes through; an exclude match forces Skip even
when an include also matches; with includes configured, a key matching
none is Skip and a key matching one keeps its real type; with no
includes, the real type passes through. -/
theorem filtered_type_implements_spec_decision (cfg : KeyPatternConfig)
    (inner : SourceKeyDyn) :
    dynType (.filtered cfg inner) = specResolveType cfg (dynKey inner) (dynType inner) := by
  show keyPatternFilteredKeyType cfg (dynKey inner) (dynType inner)
    = specResolveType cfg (dynKey inner) (dynType inner)
  obtain ⟨t, err⟩ : SourceKeyType × Option Err := dynType inner
  obtain ⟨incl, excl⟩ := cfg
  cases err with
  | some e => rfl
  | none =>
    by_cases ht : t = SourceKeyTypeSkip
    · simp [keyPatternFilteredKeyType, specResolveType, ht]
    · cases excl with
      | nil =>
        cases incl with
        | nil => simp [keyPatternFilteredKeyType, specResolveType, ht]
        | cons i is => simp [keyPatternFilteredKeyType, specResolveType, ht]
      | cons x xs =>
        cases incl with
        | nil => simp [keyPatternFilteredKeyType, specResolveType, ht]
        | cons i is =>
          by_cases hx : (x :: xs).any (fun p => p (dynKey inner)) <;>
            simp [keyPatternFilteredKeyType, specResolveType, ht, hx]

/-- C8. Every write through the prefixing destination decorator reaches
the inner destination as the same operation with the prefix prepended to
the key / collection-name argument and all other arguments unchanged
(so a set_add on "s" with member "m" through prefix "ns:" becomes an
inner set_add on "ns:s" with member "m"); construction of the decorator
fails exactly when the prefix is the empty string. -/
theorem prefixed_destination_forwards_with_prefixed_name :
    ∀ (p k hn sn zn ln member field : String) (v : Bytes) (score : Float64)
      (inner : DstBehavior),
      (exErr (NewPrefixedDestination p) = true ↔ p = "")
      ∧ prefixedDestination p inner (.set k v) = inner (.set (p ++ k) v)
      ∧ prefixedDestination p inner (.hset hn field v) = inner (.hset (p ++ hn) field v)
      ∧ prefixedDestination p inner (.sadd sn member) = inner (.sadd (p ++ sn) member)
      ∧ prefixedDestination p inner (.zadd zn member score) = inner (.zadd (p ++ zn) member score)
      ∧ prefixedDestination p inner (.lpush ln member) = inner (.lpush (p ++ ln) member) := by
  intro p k hn sn zn ln member field v score inner
  refine ⟨?_, rfl, rfl, rfl, rfl, rfl⟩
  by_cases hp : p = "" <;> simp [NewPrefixedDestination, exErr, hp]

lemma exErr_parseRegexps (compile : String → Except Err Pattern) :
    ∀ l : List String, exErr (parseRegexps compile l) = l.any fun s => exErr (compile s) := by
  intro l
  induction l with
  | nil => rfl
  | cons s rest ih =>
    rw [List.any_cons]
    cases hc : compile s with
    | error e =>
      simp only [parseRegexps, hc, exErr, Bool.true_or]
    | ok r =>
      simp only [parseRegexps, hc]
      rw [show exErr (Except.ok r : Except Err Pattern) = false from rfl, Bool.false_or, ← ih]
      cases hr : parseRegexps compile rest with
      | error e => rfl
      | ok rs => rfl

lemma keyEvents_eq_dispatch (dst : DstBehavior) (k : CopyKey) (typ : SourceKeyType)
    (h : k.type = (typ, none)) : keyEvents dst k = keyDispatchEvents dst k typ := by
  unfold keyEvents
  rw [h]

lemma keyEvents_of_skip (dst : DstBehavior) (k : CopyKey)
    (h : k.type = (SourceKeyTypeSkip, none)) : keyEvents dst k = [] := by
  rw [keyEvents_eq_dispatch dst k SourceKeyTypeSkip h]
  simp [keyDispatchEvents]

/-- C3. A key whose resolved type is Skip is invisible: inserting it
anywhere in the iteration produces exactly the run without it — no
recorder call and no destination write for that key, and Copy continues
with the remaining keys. -/
theorem skip_key_invisible (dst : DstBehavior) (pre post : List IterStep)
    (termErr closeErr : Option Err) (k : CopyKey)
    (h : k.type = (SourceKeyTypeSkip, none)) :
    Copy dst (pre ++ .nextKey k :: post) termErr closeErr
      = Copy dst (pre ++ post) termErr closeErr := by
  unfold Copy
  rw [List.map_append, List.map_append, List.map_cons]
  rw [show stepEvents dst (.nextKey k) = keyEvents dst k from rfl, keyEvents_of_skip dst k h]
  simp

/-- Witness for C3 at a concrete Skip-typed key and one-key iterations
around it. -/
theorem skip_key_invisible_witness :
    (CopyKey.mk "victim" (SourceKeyTypeSkip, none) (.ok []) (.ok []) (.ok [])
        (.ok []) (.ok [])).type = (SourceKeyTypeSkip, none)
    ∧ Copy (fun _ => none)
        ([] ++ .nextKey (CopyKey.mk "victim" (SourceKeyTypeSkip, none) (.ok []) (.ok [])
          (.ok []) (.ok []) (.ok [])) ::
            [.nextKey (CopyKey.mk "other" (SourceKeyTypeString, none) (.ok [])
              (.ok []) (.ok []) (.ok []) (.ok []))])
        none none
      = Copy (fun _ => none)
        ([] ++ [.nextKey (CopyKey.mk "other" (SourceKeyTypeString, none) (.ok [])
          (.ok []) (.ok []) (.ok []) (.ok []))])
        none none :=
  ⟨rfl,
   skip_key_invisible (fun _ => none) []
     [.nextKey (CopyKey.mk "other" (SourceKeyTypeString, none) (.ok [])
       (.ok []) (.ok []) (.ok []) (.ok []))]
     none none
     (CopyKey.mk "victim" (SourceKeyTypeSkip, none) (.ok []) (.ok []) (.ok [])
       (.ok []) (.ok []))
     rfl⟩

lemma finish_not_mem_hashItemEvents (dst : DstBehavior) (kname : String)
    (typ : SourceKeyType) :
    ∀ items, Event.rcd .finish ∉ hashItemEvents dst kname typ items := by
  intro items
  induction items with
  | nil => simp [hashItemEvents]
  | cons kv rest ih =>
    cases hdst : dst (.hset kname kv.Key kv.Value) <;>
      simp [hashItemEvents, hdst, ih]

lemma finish_not_mem_listItemEvents (dst : DstBehavior) (kname : String)
    (typ : SourceKeyType) :
    ∀ items, Event.rcd .finish ∉ listItemEvents dst kname typ items := by
  intro items
  induction items with
  | nil => simp [listItemEvents]
  | cons item rest ih =>
    cases hdst : dst (.lpush kname item) <;>
      simp [listItemEvents, hdst, ih]

lemma finish_not_mem_setMemberEvents (dst : DstBehavior) (kname : String)
    (typ : SourceKeyType) :
    ∀ members, Event.rcd .finish ∉ setMemberEvents dst kname typ members := by
  intro members
  induction members with
  | nil => simp [setMemberEvents]
  | cons m rest ih =>
    cases hdst : dst (.sadd kname m) <;>
      simp [setMemberEvents, hdst, ih]

lemma finish_not_mem_zsetMemberEvents (dst : DstBehavior) (kname : String)
    (typ : SourceKeyType) :
    ∀ members, Event.rcd .finish ∉ zsetMemberEvents dst kname typ members := by
  intro members
  induction members with
  | nil => simp [zsetMemberEvents]
  | cons m rest ih =>
    cases hdst : dst (.zadd kname m.Key m.Score) <;>
      simp [zsetMemberEvents, hdst, ih]

lemma finish_not_mem_keyDispatchEvents (dst : DstBehavior) (k : CopyKey)
    (t : SourceKeyType) : Event.rcd .finish ∉ keyDispatchEvents dst k t := by
  unfold keyDispatchEvents
  by_cases h0 : t = SourceKeyTypeSkip
  · simp [h0]
  rw [if_neg h0]
  by_cases h1 : t = SourceKeyTypeString
  · rw [if_pos h1]
    unfold stringEvents
    cases hget : k.getR with
    | error e => simp
    | ok val => cases hdst : dst (.set k.key val) <;> simp [hdst]
  rw [if_neg h1]
  by_cases h2 : t = SourceKeyTypeHash
  · rw [if_pos h2]
    cases hit : k.hitemsR with
    | error e => simp
    | ok items => simpa using finish_not_mem_hashItemEvents dst k.key t items
  rw [if_neg h2]
  by_cases h3 : t = SourceKeyTypeList
  · rw [if_pos h3]
    cases hit : k.litemsR with
    | error e => simp
    | ok items => simpa using finish_not_mem_listItemEvents dst k.key t items
  rw [if_neg h3]
  by_cases h4 : t = SourceKeyTypeSet
  · rw [if_pos h4]
    cases hit : k.smembersR with
    | error e => simp
    | ok members => simpa using finish_not_mem_setMemberEvents dst k.key t members
  rw [if_neg h4]
  by_cases h5 : t = SourceKeyTypeZSet
  · rw [if_pos h5]
    cases hit : k.zmembersR with
    | error e => simp
    | ok members => simpa using finish_not_mem_zsetMemberEvents dst k.key t members
  rw [if_neg h5]
  simp

lemma finish_not_mem_keyEvents (dst : DstBehavior) (k : CopyKey) :
    Event.rcd .finish ∉ keyEvents dst k := by
  unfold keyEvents
  rcases htype : k.type with ⟨t, err⟩
  cases err with
  | some e => simp
  | none => exact finish_not_mem_keyDispatchEvents dst k t

lemma finish_not_mem_stepEvents (dst : DstBehavior) (s : IterStep) :
    Event.rcd .finish ∉ stepEvents dst s := by
  cases s with
  | nextErr e => simp [stepEvents]
  | nextKey k => exact finish_not_mem_keyEvents dst k

lemma finish_not_mem_loopEvents (dst : DstBehavior) (steps : List IterStep) :
    Event.rcd .finish ∉ ((steps.map (stepEvents dst)).flatten) := by
  induction steps with
  | nil => simp
  | cons s rest ih =>
    simp only [List.map_cons, List.flatten_cons, List.mem_append]
    rintro (h | h)
    · exact finish_not_mem_stepEvents dst s h
    · exact ih h

lemma finish_not_mem_termEvents (termErr : Option Err) :
    Event.rcd .finish ∉ termEvents termErr := by
  cases termErr <;> simp [termEvents]

lemma count_finish_recEvents_eq_zero {tr : List Event}
    (h : Event.rcd .finish ∉ tr) : (recEvents tr).count .finish = 0 := by
  rw [List.count_eq_zero]
  intro hmem
  apply h
  unfold recEvents at hmem
  obtain ⟨ev, hev, heq⟩ := List.mem_filterMap.mp hmem
  cases ev with
  | rcd e =>
    simp at heq
    subst heq
    exact hev
  | dst c => simp at heq

/-- C2 (amended). The recorder's Finish notification is delivered exactly
once per Copy run; it is the final recorder call whenever closing the
source iterator succeeds; when closing fails, the close-failure error
report is the only recorder call delivered after Finish, because the
deferred close runs after the function body. -/
theorem finish_exactly_once_and_ordering (dst : DstBehavior)
    (steps : List IterStep) (termErr : Option Err) :
    ∀ (closeErr : Option Err) (e : Err),
      (recEvents (Copy dst steps termErr closeErr)).count .finish = 1
      ∧ (recEvents (Copy dst steps termErr none)).getLast? = some .finish
      ∧ Copy dst steps termErr (some e)
          = Copy dst steps termErr none
            ++ [.rcd (.error "close source iterator failed" (some e) [])] := by
  intro closeErr e
  refine ⟨?_, ?_, ?_⟩
  · unfold Copy
    rw [recEvents_append, recEvents_append, recEvents_append,
      List.count_append, List.count_append, List.count_append]
    rw [count_finish_recEvents_eq_zero (finish_not_mem_loopEvents dst steps),
      count_finish_recEvents_eq_zero (finish_not_mem_termEvents termErr)]
    have hclose : (recEvents (closeEvents closeErr)).count RecEvent.finish = 0 := by
      apply count_finish_recEvents_eq_zero
      cases closeErr <;> simp [closeEvents]
    rw [hclose]
    rfl
  · unfold Copy
    rw [show closeEvents none = [] from rfl, List.append_nil, recEvents_append,
      show recEvents [Event.rcd .finish] = [RecEvent.finish] from rfl]
    exact List.getLast?_concat _
  · unfold Copy
    rw [show closeEvents none = [] from rfl, List.append_nil]
    rfl

/-- Counterexample to C2 as stated: with no keys, no iterator error and a
failing `iter.Close()`, the final recorder call is the close-failure
error report, not Finish — the deferred close error is reported after
Finish. -/
theorem finish_not_last_on_close_failure :
    (recEvents (Copy (fun _ => none) [] none (some "boom"))).getLast?
      ≠ some RecEvent.finish := by
  decide

lemma dstCalls_cons_rcd (e : RecEvent) (tr : List Event) :
    dstCalls (.rcd e :: tr) = dstCalls tr := rfl

lemma dstCalls_cons_dst (c : DstCall) (tr : List Event) :
    dstCalls (.dst c :: tr) = c :: dstCalls tr := rfl

lemma dstCalls_termEvents (termErr : Option Err) : dstCalls (termEvents termErr) = [] := by
  cases termErr <;> rfl

lemma dstCalls_closeEvents (closeErr : Option Err) : dstCalls (closeEvents closeErr) = [] := by
  cases closeErr <;> rfl

lemma dstCalls_copy (dst : DstBehavior) (steps : List IterStep)
    (termErr closeErr : Option Err) :
    dstCalls (Copy dst steps termErr closeErr)
      = dstCalls ((steps.map (stepEvents dst)).flatten) := by
  unfold Copy
  rw [dstCalls_append, dstCalls_append, dstCalls_append, dstCalls_termEvents,
    dstCalls_closeEvents]
  simp [dstCalls]

lemma dstCalls_hashItemEvents (dst : DstBehavior) (kname : String) (typ : SourceKeyType) :
    ∀ items, dstCalls (hashItemEvents dst kname typ items)
      = items.map fun kv => DstCall.hset kname kv.Key kv.Value := by
  intro items
  induction items with
  | nil => rfl
  | cons kv rest ih =>
    cases hdst : dst (.hset kname kv.Key kv.Value) with
    | none =>
      simp only [hashItemEvents, hdst, List.nil_append, dstCalls_cons_rcd,
        dstCalls_cons_dst, ih, List.map_cons]
    | some e =>
      simp only [hashItemEvents, hdst, dstCalls_cons_rcd, dstCalls_cons_dst,
        dstCalls_append, List.map_cons, ih]
      rfl

lemma dstCalls_listItemEvents (dst : DstBehavior) (kname : String) (typ : SourceKeyType) :
    ∀ items, dstCalls (listItemEvents dst kname typ items)
      = items.map fun item => DstCall.lpush kname item := by
  intro items
  induction items with
  | nil => rfl
  | cons item rest ih =>
    cases hdst : dst (.lpush kname item) with
    | none =>
      simp only [listItemEvents, hdst, List.nil_append, dstCalls_cons_rcd,
        dstCalls_cons_dst, ih, List.map_cons]
    | some e =>
      simp only [listItemEvents, hdst, dstCalls_cons_rcd, dstCalls_cons_dst,
        dstCalls_append, List.map_cons, ih]
      rfl

lemma dstCalls_setMemberEvents (dst : DstBehavior) (kname : String) (typ : SourceKeyType) :
    ∀ members, dstCalls (setMemberEvents dst kname typ members)
      = members.map fun m => DstCall.sadd kname m := by
  intro members
  induction members with
  | nil => rfl
  | cons m rest ih =>
    cases hdst : dst (.sadd kname m) with
    | none =>
      simp only [setMemberEvents, hdst, List.nil_append, dstCalls_cons_rcd,
        dstCalls_cons_dst, ih, List.map_cons]
    | some e =>
      simp only [setMemberEvents, hdst, dstCalls_cons_rcd, dstCalls_cons_dst,
        dstCalls_append, List.map_cons, ih]
      rfl

lemma dstCalls_zsetMemberEvents (dst : DstBehavior) (kname : String) (typ : SourceKeyType) :
    ∀ members, dstCalls (zsetMemberEvents dst kname typ members)
      = members.map fun m => DstCall.zadd kname m.Key m.Score := by
  intro members
  induction members with
  | nil => rfl
  | cons m rest ih =>
    cases hdst : dst (.zadd kname m.Key m.Score) with
    | none =>
      simp only [zsetMemberEvents, hdst, List.nil_append, dstCalls_cons_rcd,
        dstCalls_cons_dst, ih, List.map_cons]
    | some e =>
      simp only [zsetMemberEvents, hdst, dstCalls_cons_rcd, dstCalls_cons_dst,
        dstCalls_append, List.map_cons, ih]
      rfl

lemma exOk_iff {ε α : Type} (e : Except ε α) : exOk e = true ↔ ∃ v, e = .ok v := by
  cases e <;> simp [exOk]

instance {ε α : Type} [DecidableEq ε] [DecidableEq α] : DecidableEq (Except ε α) :=
  fun a b =>
    match a, b with
    | .ok x, .ok y => decidable_of_iff (x = y) (by simp)
    | .error x, .error y => decidable_of_iff (x = y) (by simp)
    | .ok _, .error _ => isFalse fun hc => Except.noConfusion hc
    | .error _, .ok _ => isFalse fun hc => Except.noConfusion hc

lemma dstCalls_dispatch_spec (dst : DstBehavior) (k : CopyKey) (typ : SourceKeyType)
    (hrec : typ = SourceKeyTypeString ∨ typ = SourceKeyTypeHash ∨ typ = SourceKeyTypeList
      ∨ typ = SourceKeyTypeSet ∨ typ = SourceKeyTypeZSet)
    (hfetch : fetchOk k typ = true) :
    dstCalls (keyDispatchEvents dst k typ) = specExpectedWrites k typ := by
  rcases hrec with h | h | h | h | h <;> subst h
  · have hok : exOk k.getR = true := by
      simpa [fetchOk, SourceKeyTypeString, SourceKeyTypeHash, SourceKeyTypeList,
        SourceKeyTypeSet, SourceKeyTypeZSet] using hfetch
    obtain ⟨v, hv⟩ := (exOk_iff k.getR).mp hok
    simp only [keyDispatchEvents, specExpectedWrites, SourceKeyTypeString,
      SourceKeyTypeSkip, SourceKeyTypeHash, SourceKeyTypeList, SourceKeyTypeSet,
      SourceKeyTypeZSet, hv, reduceIte]
    unfold stringEvents
    rw [hv]
    cases hdst : dst (.set k.key v) <;> simp [dstCalls, hdst]
  · have hok : exOk k.hitemsR = true := by
      simpa [fetchOk, SourceKeyTypeString, SourceKeyTypeHash, SourceKeyTypeList,
        SourceKeyTypeSet, SourceKeyTypeZSet] using hfetch
    obtain ⟨items, hv⟩ := (exOk_iff k.hitemsR).mp hok
    simp only [keyDispatchEvents, specExpectedWrites, SourceKeyTypeString,
      SourceKeyTypeSkip, SourceKeyTypeHash, SourceKeyTypeList, SourceKeyTypeSet,
      SourceKeyTypeZSet, hv, reduceIte]
    exact dstCalls_hashItemEvents dst k.key _ items
  · have hok : exOk k.litemsR = true := by
      simpa [fetchOk, SourceKeyTypeString, SourceKeyTypeHash, SourceKeyTypeList,
        SourceKeyTypeSet, SourceKeyTypeZSet] using hfetch
    obtain ⟨items, hv⟩ := (exOk_iff k.litemsR).mp hok
    simp only [keyDispatchEvents, specExpectedWrites, SourceKeyTypeString,
      SourceKeyTypeSkip, SourceKeyTypeHash, SourceKeyTypeList, SourceKeyTypeSet,
      SourceKeyTypeZSet, hv, reduceIte]
    exact dstCalls_listItemEvents dst k.key _ items
  · have hok : exOk k.smembersR = true := by
      simpa [fetchOk, SourceKeyTypeString, SourceKeyTypeHash, SourceKeyTypeList,
        SourceKeyTypeSet, SourceKeyTypeZSet] using hfetch
    obtain ⟨members, hv⟩ := (exOk_iff k.smembersR).mp hok
    simp only [keyDispatchEvents, specExpectedWrites, SourceKeyTypeString,
      SourceKeyTypeSkip, SourceKeyTypeHash, SourceKeyTypeList, SourceKeyTypeSet,
      SourceKeyTypeZSet, hv, reduceIte]
    exact dstCalls_setMemberEvents dst k.key _ members
  · have hok : exOk k.zmembersR = true := by
      simpa [fetchOk, SourceKeyTypeString, SourceKeyTypeHash, SourceKeyTypeList,
        SourceKeyTypeSet, SourceKeyTypeZSet] using hfetch
    obtain ⟨members, hv⟩ := (exOk_iff k.zmembersR).mp hok
    simp only [keyDispatchEvents, specExpectedWrites, SourceKeyTypeString,
      SourceKeyTypeSkip, SourceKeyTypeHash, SourceKeyTypeList, SourceKeyTypeSet,
      SourceKeyTypeZSet, hv, reduceIte]
    exact dstCalls_zsetMemberEvents dst k.key _ members

/-- C1. For a key of a recognized non-Skip type whose fetch succeeds and
whose writes all succeed, Copy issues exactly one destination write per
fetched item, in the fetched sequence's order, with no duplication and no
omission: one set per String value, one hash_set per hash field/value
pair, one list_push per list item, one set_add per set member, and one
sorted_set_add per (member, score) pair. The run's write-call sequence is
exactly the writes of the surrounding keys with this key's expected
writes inserted in between. -/
theorem copy_writes_one_per_fetched_item (dst : DstBehavior)
    (pre post : List IterStep) (termErr closeErr : Option Err)
    (k : CopyKey) (typ : SourceKeyType)
    (htyp : k.type = (typ, none))
    (hrec : typ = SourceKeyTypeString ∨ typ = SourceKeyTypeHash ∨ typ = SourceKeyTypeList
      ∨ typ = SourceKeyTypeSet ∨ typ = SourceKeyTypeZSet)
    (hfetch : fetchOk k typ = true)
    (_hwrites : ∀ c ∈ specExpectedWrites k typ, dst c = none) :
    dstCalls (Copy dst (pre ++ .nextKey k :: post) termErr closeErr)
      = dstCalls (Copy dst pre termErr closeErr) ++ specExpectedWrites k typ
        ++ dstCalls (Copy dst post termErr closeErr) := by
  rw [dstCalls_copy, dstCalls_copy, dstCalls_copy]
  rw [List.map_append, List.map_cons, List.flatten_append, List.flatten_cons]
  rw [dstCalls_append, dstCalls_append, List.append_assoc]
  congr 1
  congr 1
  rw [show stepEvents dst (.nextKey k) = keyEvents dst k from rfl,
    keyEvents_eq_dispatch dst k typ htyp]
  exact dstCalls_dispatch_spec dst k typ hrec hfetch

/-- Witness for C1 at a concrete ZSet key with two (member, score) pairs
(the spec's Scenario B) and an all-succeeding destination. -/
theorem copy_writes_one_per_fetched_item_witness :
    (CopyKey.mk "z" (SourceKeyTypeZSet, none) (.ok []) (.ok []) (.ok []) (.ok [])
        (.ok [⟨"m1", ⟨1⟩⟩, ⟨"m2", ⟨2⟩⟩])).type = (SourceKeyTypeZSet, none)
    ∧ (SourceKeyTypeZSet = SourceKeyTypeString ∨ SourceKeyTypeZSet = SourceKeyTypeHash
        ∨ SourceKeyTypeZSet = SourceKeyTypeList ∨ SourceKeyTypeZSet = SourceKeyTypeSet
        ∨ SourceKeyTypeZSet = SourceKeyTypeZSet)
    ∧ fetchOk (CopyKey.mk "z" (SourceKeyTypeZSet, none) (.ok []) (.ok []) (.ok [])
        (.ok []) (.ok [⟨"m1", ⟨1⟩⟩, ⟨"m2", ⟨2⟩⟩])) SourceKeyTypeZSet = true
    ∧ (∀ c ∈ specExpectedWrites (CopyKey.mk "z" (SourceKeyTypeZSet, none) (.ok [])
        (.ok []) (.ok []) (.ok []) (.ok [⟨"m1", ⟨1⟩⟩, ⟨"m2", ⟨2⟩⟩])) SourceKeyTypeZSet,
        (fun _ => none : DstBehavior) c = none)
    ∧ dstCalls (Copy (fun _ => none)
        ([] ++ .nextKey (CopyKey.mk "z" (SourceKeyTypeZSet, none) (.ok []) (.ok [])
          (.ok []) (.ok []) (.ok [⟨"m1", ⟨1⟩⟩, ⟨"m2", ⟨2⟩⟩])) :: []) none none)
        = dstCalls (Copy (fun _ => none) [] none none)
          ++ specExpectedWrites (CopyKey.mk "z" (SourceKeyTypeZSet, none) (.ok [])
            (.ok []) (.ok []) (.ok []) (.ok [⟨"m1", ⟨1⟩⟩, ⟨"m2", ⟨2⟩⟩])) SourceKeyTypeZSet
          ++ dstCalls (Copy (fun _ => none) [] none none) :=
  ⟨rfl, by decide, by decide, fun c _ => rfl,
   copy_writes_one_per_fetched_item (fun _ => none) [] [] none none
     (CopyKey.mk "z" (SourceKeyTypeZSet, none) (.ok []) (.ok []) (.ok []) (.ok [])
       (.ok [⟨"m1", ⟨1⟩⟩, ⟨"m2", ⟨2⟩⟩])) SourceKeyTypeZSet rfl (by decide) (by decide)
     (fun c _ => rfl)⟩

lemma goodRow_destruct {parse : KVParser} {key : String} {val : Bytes} {e : Option Err}
    (h : goodRow parse (key, val, e) = true) :
    e = none ∧ ¬(key = "") ∧ exOk (parse key val) = true := by
  simp only [goodRow, Bool.and_eq_true, Option.isNone_iff_eq_none, Bool.not_eq_eq_eq_not,
    Bool.not_true, decide_eq_false_iff_not] at h
  exact ⟨h.1.1, h.1.2, h.2⟩

lemma runKV_append (parse : KVParser) (pre rest : List KVTriple)
    (h : ∀ r ∈ pre, goodRow parse r = true) :
    runKV parse (pre ++ rest)
      = ((runKV parse pre).1 ++ (runKV parse rest).1, (runKV parse rest).2) := by
  induction pre with
  | nil => simp [runKV]
  | cons r pre ih =>
    obtain ⟨key, val, e⟩ := r
    obtain ⟨he, hk, hp⟩ := goodRow_destruct (h _ (List.mem_cons_self _ _))
    obtain ⟨item, hitem⟩ := (exOk_iff _).mp hp
    subst he
    rw [List.cons_append]
    simp only [runKV, hitem, if_neg hk]
    rw [ih fun r hr => h r (List.mem_cons_of_mem _ hr)]
    simp

/-- C5. A parse failure on a raw row is returned synchronously by the
adapter's `Next()` to its caller, without being recorded in the
iterator's terminal error state (unlike a store-read error); the Copy
engine reports it via the recorder and continues with the subsequent
rows, never retrying the failed row, and the events (in particular the
destination writes) of the earlier rows are unchanged in front of it. -/
theorem parse_error_propagates_and_copy_continues
    (parse : KVParser) (dst : DstBehavior) (closeErr : Option Err)
    (pre rest : List KVTriple) (key : String) (val : Bytes) (pe : Err)
    (hpre : ∀ r ∈ pre, goodRow parse r = true)
    (hkey : ¬(key = "")) (hp : parse key val = .error pe) :
    keyValueIteratorNext parse ⟨(key, val, none) :: rest, none⟩
        = ((none, some pe), ⟨rest, none⟩)
    ∧ copyKV parse dst (pre ++ (key, val, none) :: rest) closeErr
        = rowsEvents parse dst pre
          ++ [.rcd (.error "iterate next key failed" (some pe) [])]
          ++ copyKV parse dst rest closeErr := by
  constructor
  · simp [keyValueIteratorNext, hp, hkey]
  · have hbad : runKV parse ((key, val, none) :: rest)
        = (.nextErr pe :: (runKV parse rest).1, (runKV parse rest).2) := by
      simp only [runKV, hp, if_neg hkey]
    unfold copyKV rowsEvents Copy
    rw [runKV_append parse pre _ hpre, hbad]
    simp [stepEvents]

/-- The parser used by the adapter-level witnesses: fails on the raw key
"c", parses every other row as a String item carrying the row's value. -/
def witnessParser : KVParser := fun k v =>
  if k = "c" then .error "bad row"
  else .ok ⟨k, SourceKeyTypeString, v, "", [], "", "", "", ⟨0⟩⟩

/-- Witness for C5: rows "a" and "b" parse, row "c" fails to parse; the
writes for "a" and "b" precede the single reported parse error. -/
theorem parse_error_propagates_witness :
    (∀ r ∈ [(("a" : String), ([1] : Bytes), (none : Option Err)),
        ("b", [2], none)], goodRow witnessParser r = true)
    ∧ ¬(("c" : String) = "")
    ∧ witnessParser "c" [3] = .error "bad row"
    ∧ keyValueIteratorNext witnessParser ⟨[("c", [3], none)], none⟩
        = ((none, some "bad row"), ⟨[], none⟩)
    ∧ copyKV witnessParser (fun _ => none)
        ([("a", [1], none), ("b", [2], none)] ++ ("c", [3], none) :: []) none
        = rowsEvents witnessParser (fun _ => none) [("a", [1], none), ("b", [2], none)]
          ++ [.rcd (.error "iterate next key failed" (some "bad row") [])]
          ++ copyKV witnessParser (fun _ => none) [] none :=
  ⟨by decide, by decide, by decide,
   (parse_error_propagates_and_copy_continues witnessParser (fun _ => none) none
     [("a", [1], none), ("b", [2], none)] [] "c" [3] "bad row"
     (by decide) (by decide) (by decide)).1,
   (parse_error_propagates_and_copy_continues witnessParser (fun _ => none) none
     [("a", [1], none), ("b", [2], none)] [] "c" [3] "bad row"
     (by decide) (by decide) (by decide)).2⟩

/-- C6. A store-read error is recorded internally by the adapter, which
returns neither a key nor an error from that `Next()` call; every later
`Next()` call with a recorded error returns no key and no error with the
state (hence the store position) untouched; the recorded error is what
`Error()` returns; and the whole Copy run consists of the events of the
keys processed before the failure followed by the post-loop report of
the recorded error — rows after the failing one contribute nothing. -/
theorem store_error_recorded_and_halts
    (parse : KVParser) (dst : DstBehavior) (closeErr : Option Err)
    (pre rest : List KVTriple) (key : String) (val : Bytes) (er : Err)
    (hpre : ∀ r ∈ pre, goodRow parse r = true) :
    keyValueIteratorNext parse ⟨(key, val, some er) :: rest, none⟩
        = ((none, none), ⟨rest, some er⟩)
    ∧ (∀ s : KeyValueIteratorState, s.err.isSome
        → keyValueIteratorNext parse s = ((none, none), s))
    ∧ keyValueIteratorError ⟨rest, some er⟩ = some er
    ∧ copyKV parse dst (pre ++ (key, val, some er) :: rest) closeErr
        = rowsEvents parse dst pre
          ++ [.rcd (.error "iterator errors" (some er) [])]
          ++ [.rcd .finish] ++ closeEvents closeErr := by
  refine ⟨by simp [keyValueIteratorNext], ?_, rfl, ?_⟩
  · intro s hs
    simp [keyValueIteratorNext, hs]
  · have hbad : runKV parse ((key, val, some er) :: rest) = ([], some er) := by
      simp [runKV]
    unfold copyKV rowsEvents Copy
    rw [runKV_append parse pre _ hpre, hbad]
    simp [termEvents]

/-- Witness for C6: rows "a" and "b" parse and are copied, then the store
fails with "io fail"; the later row "d" is never produced. -/
theorem store_error_recorded_witness :
    (∀ r ∈ [(("a" : String), ([1] : Bytes), (none : Option Err)),
        ("b", [2], none)], goodRow witnessParser r = true)
    ∧ keyValueIteratorNext witnessParser
        ⟨[("x", [], some "io fail"), ("d", [9], none)], none⟩
        = ((none, none), ⟨[("d", [9], none)], some "io fail"⟩)
    ∧ keyValueIteratorError ⟨[("d", [9], none)], some "io fail"⟩ = some "io fail"
    ∧ copyKV witnessParser (fun _ => none)
        ([("a", [1], none), ("b", [2], none)] ++ ("x", [], some "io fail")
          :: [("d", [9], none)]) none
        = rowsEvents witnessParser (fun _ => none) [("a", [1], none), ("b", [2], none)]
          ++ [.rcd (.error "iterator errors" (some "io fail") [])]
          ++ [.rcd .finish] ++ closeEvents none :=
  ⟨by decide,
   (store_error_recorded_and_halts witnessParser (fun _ => none) none
     [("a", [1], none), ("b", [2], none)] [("d", [9], none)] "x" [] "io fail"
     (by decide)).1,
   (store_error_recorded_and_halts witnessParser (fun _ => none) none
     [("a", [1], none), ("b", [2], none)] [("d", [9], none)] "x" [] "io fail"
     (by decide)).2.2.1,
   (store_error_recorded_and_halts witnessParser (fun _ => none) none
     [("a", [1], none), ("b", [2], none)] [("d", [9], none)] "x" [] "io fail"
     (by decide)).2.2.2⟩

/-- A concrete Set item materialized by the adapter during `Next()`:
key "a", member "m". -/
def bufferedSetItem : KeyValueItem :=
  ⟨"a", SourceKeyTypeSet, [], "", [], "", "m", "", ⟨0⟩⟩

/-- A filter configuration excluding only keys equal to "x": key "a"
passes the filter with its real type. -/
def excludeXCfg : KeyPatternConfig :=
  ⟨[], [fun k => k == "x"]⟩

/-- C7 (code evaluated at the failing input). When the adapter is wrapped
by the filter decorator, the per-type accessors do NOT return the
collection built from the materialized Key Value Item: the type assertion
to the adapter's key type fails on the decorator's wrapper key and its
ignored failure flag leaves the zero-value item, so the accessor returns
the zero member "" instead of the buffered member "m" — and a Copy run
over the filtered key writes the empty member to the destination. The
unwrapped adapter key does return the buffered member. -/
theorem filtered_accessors_lose_buffered_item :
    dynType (.filtered excludeXCfg (.kvKey bufferedSetItem)) = (SourceKeyTypeSet, none)
    ∧ keyValueSourceSMembers (.kvKey bufferedSetItem) = .ok ["m"]
    ∧ keyValueSourceSMembers (.filtered excludeXCfg (.kvKey bufferedSetItem)) = .ok [""]
    ∧ keyValueSourceSMembers (.filtered excludeXCfg (.kvKey bufferedSetItem))
        ≠ .ok [bufferedSetItem.SetMember]
    ∧ dstCalls (Copy (fun _ => none)
        [.nextKey (kvCopyKey (.filtered excludeXCfg (.kvKey bufferedSetItem)))] none none)
      = [.sadd "a" ""] := by
  refine ⟨by decide, rfl, rfl, by decide, ?_⟩
  decide

/-- C10. A key whose `Type()` call succeeds with a value outside the six
defined constants reaches the default switch arm, which passes the nil
error left by the successful `Type()` call to `recorder.Error`; the
bundled standard recorder calls `err.Error()` unconditionally, so
reporting such a key through it dereferences a nil error (modelled: the
formatter has no result for a `none` error). -/
theorem unsupported_type_passes_nil_error_to_recorder (dst : DstBehavior)
    (k : CopyKey) (typ : SourceKeyType)
    (htyp : k.type = (typ, none))
    (h0 : ¬typ = SourceKeyTypeSkip) (h1 : ¬typ = SourceKeyTypeString)
    (h2 : ¬typ = SourceKeyTypeHash) (h3 : ¬typ = SourceKeyTypeList)
    (h4 : ¬typ = SourceKeyTypeSet) (h5 : ¬typ = SourceKeyTypeZSet) :
    keyEvents dst k
      = [.rcd (.error "unsupported key type" none
          [.s "type", .s typ, .s "key", .s k.key])]
    ∧ ∀ (sprint : CtxVal → String) (message : String) (kvs : List CtxVal),
        stdCopyRecorderError sprint message none kvs = none := by
  constructor
  · rw [keyEvents_eq_dispatch dst k typ htyp]
    unfold keyDispatchEvents
    rw [if_neg h0, if_neg h1, if_neg h2, if_neg h3, if_neg h4, if_neg h5]
  · intro sprint message kvs
    rfl

/-- Witness for C10 at a key reporting the unrecognized type "stream". -/
theorem unsupported_type_nil_error_witness :
    (CopyKey.mk "s1" ("stream", none) (.ok []) (.ok []) (.ok []) (.ok [])
        (.ok [])).type = (("stream" : SourceKeyType), none)
    ∧ keyEvents (fun _ => none)
        (CopyKey.mk "s1" ("stream", none) (.ok []) (.ok []) (.ok []) (.ok []) (.ok []))
      = [.rcd (.error "unsupported key type" none
          [.s "type", .s "stream", .s "key", .s "s1"])]
    ∧ stdCopyRecorderError (fun _ => "") "unsupported key type" none [] = none :=
  ⟨rfl,
   ((unsupported_type_passes_nil_error_to_recorder (fun _ => none)
     (CopyKey.mk "s1" ("stream", none) (.ok []) (.ok []) (.ok []) (.ok []) (.ok []))
     "stream" rfl (by decide) (by decide) (by decide) (by decide) (by decide)
     (by decide)).1),
   ((unsupported_type_passes_nil_error_to_recorder (fun _ => none)
     (CopyKey.mk "s1" ("stream", none) (.ok []) (.ok []) (.ok []) (.ok []) (.ok []))
     "stream" rfl (by decide) (by decide) (by decide) (by decide) (by decide)
     (by decide)).2 (fun _ => "") "unsupported key type" [])⟩

/-- C9. Constructing the key filter decorator fails (returning no source)
exactly when at least one string of the includes or excludes lists fails
to compile as a pattern; this happens inside the constructor, before any
copying starts. Pattern validity is compilation success of the abstracted
`regexp.Compile`. -/
theorem key_pattern_source_fails_iff_invalid_pattern :
    ∀ (compile : String → Except Err Pattern) (includes excludes : List String),
      exErr (NewKeyPatternSource compile includes excludes)
        = (includes ++ excludes).any fun s => exErr (compile s) := by
  intro compile includes excludes
  by_cases hb : includes.isEmpty && excludes.isEmpty
  · obtain ⟨h1, h2⟩ := Bool.and_eq_true_iff.mp hb
    rw [List.isEmpty_iff] at h1 h2
    subst h1; subst h2
    simp [NewKeyPatternSource, exErr]
  · rw [List.any_append, ← exErr_parseRegexps compile includes,
      ← exErr_parseRegexps compile excludes]
    rw [NewKeyPatternSource, if_neg (by simp [hb])]
    cases hi : parseRegexps compile includes with
    | error e => simp only [hi, exErr, Bool.true_or]
    | ok is =>
      cases he : parseRegexps compile excludes with
      | error e => simp only [hi, he, exErr, Bool.false_or]
      | ok es => simp only [hi, he, exErr, Bool.false_or]

end RedisMigrate
